import Mathlib

/-!
Verification development for the Remiro AI user profile and assessment
progress store (`backend/utils/UserManager.js`, the HTTP handlers of
`backend/server.js` that wrap it, and the `get_next_options` routing logic
documented in `AGENT_LOGICAL_FLOW_DETAILED.md`).

The store is filesystem-backed: one directory per user (named
`${sanitizedName}_${userId}`) holding a `profile.json` record and a
`sessions/` subdirectory with one JSON file per conversation session.
We embed that state shallowly: a `Store` is the list of user directories
(in directory-listing order); each directory carries the parsed contents
of its `profile.json` and of its session files.  JavaScript objects whose
key set can change at runtime (the `profile` dimension map) are embedded
as association lists, with `objSet` mirroring JS property assignment
(update in place if the key exists, append otherwise).  Thrown JS `Error`
values are embedded as `JsError` records carrying the error class name
(`"Error"` for `new Error(...)`) and the message; fallible operations
return `Except JsError`.  Nondeterministic inputs (`uuidv4()`,
`new Date().toISOString()`) are passed in as explicit arguments.
-/

/-- A JSON value stored in a dimension slot: either JS `null` or an opaque
non-null payload (the assessment result object, kept abstract). -/
inductive JsVal where
  | null
  | obj (payload : String)
deriving DecidableEq, Repr

/-- One conversation turn as saved by the `/api/chat` handler:
`{ timestamp, userMessage, botResponse }`. -/
structure Turn where
  timestamp : String
  userMessage : String
  botResponse : String
deriving DecidableEq, Repr

/-- The contents of a user's `profile.json`, as written by
`UserManager.createUser` and updated by `UserManager.updateUserProfile`.
The `profile` field is the 12-dimension map, embedded as an association
list because JS property assignment can grow its key set.  The JS record
also contains a vestigial `sessions: []` array that no code ever reads or
updates; it is omitted here.  `updatedAt` is absent until the first
dimension write. -/
structure UserData where
  id : String
  name : String
  createdAt : String
  profile : List (String × JsVal)
  updatedAt : Option String
deriving DecidableEq, Repr

/-- One user directory under `data/users`: its name
(`${sanitizedName}_${userId}`), its `profile.json` contents, and its
`sessions/` subdirectory as an association list from session file name
(`${sessionId}.json`) to the parsed list of turns.  An absent `sessions/`
directory and an empty one are both embedded as `[]`: `getUserData`
produces the same output for both. -/
structure UserDir where
  dirName : String
  profileJson : UserData
  sessions : List (String × List Turn)
deriving DecidableEq, Repr

/-- The whole store: the user directories in directory-listing order. -/
structure Store where
  usersDir : List UserDir
deriving DecidableEq, Repr

/-- A thrown JS error: `name` is the error class name — always `"Error"`
for the `new Error(message)` values these modules throw, `"TypeError"` for
a property access on `undefined`. -/
structure JsError where
  name : String
  message : String
deriving DecidableEq, Repr

/-- JS `haystack.includes(needle)`: substring containment. -/
def strIncludes (haystack needle : String) : Bool :=
  decide (needle.toList <:+: haystack.toList)

/-- JS property assignment `o[k] = v` on an object embedded as an
association list: overwrite in place when the key is present, append a new
entry otherwise.  Also used for writing a file into a directory embedded
as an association list from file name to contents. -/
def objSet {β : Type} (o : List (String × β)) (k : String) (v : β) :
    List (String × β) :=
  if o.any (fun p => p.1 == k) then
    o.map (fun p => if p.1 == k then (k, v) else p)
  else o ++ [(k, v)]

/-- JS `s.trim()`: strip leading and trailing whitespace. -/
def jsTrim (cs : List Char) : List Char :=
  ((cs.dropWhile Char.isWhitespace).reverse.dropWhile Char.isWhitespace).reverse

/-- `name.replace(/[^a-zA-Z0-9\s]/g, '').trim()`: keep ASCII letters,
digits and whitespace, then trim. -/
def sanitize (name : String) : String :=
  String.mk (jsTrim (name.toList.filter fun c =>
    ('a' ≤ c && c ≤ 'z') || ('A' ≤ c && c ≤ 'Z') ||
    ('0' ≤ c && c ≤ '9') || c.isWhitespace))

/-- The 12 fixed dimension keys of a fresh profile, in the order
`createUser` declares them. -/
def dimensionKeys : List String :=
  ["cognitiveAbilities", "personality", "emotionalIntelligence",
   "physicalContext", "strengthsWeaknesses", "skills", "constraints",
   "interests", "motivationsValues", "aspirations", "trackRecord",
   "learningPreferences"]

/-- The initial dimension map: all 12 fixed keys bound to `null`. -/
def initialProfile : List (String × JsVal) :=
  dimensionKeys.map (fun k => (k, JsVal.null))

/-- What `createUser` returns: `{ userId, name, message }`. -/
structure CreateResult where
  userId : String
  name : String
  message : String
deriving DecidableEq, Repr

/-- `UserManager.createUser(name)`.  `userId` embeds the fresh `uuidv4()`
and `now` the `new Date().toISOString()` timestamp.  It sanitizes the
name, creates the directory `${sanitizedName}_${userId}`, writes the
initial `profile.json`, and returns the welcome payload.  It never fails:
there is no emptiness check on the sanitized name. -/
def createUser (st : Store) (name userId now : String) : Store × CreateResult :=
  let sanitizedName := sanitize name
  let dirName := sanitizedName ++ "_" ++ userId
  let userData : UserData :=
    { id := userId, name := sanitizedName, createdAt := now,
      profile := initialProfile, updatedAt := none }
  (⟨st.usersDir ++ [⟨dirName, userData, []⟩]⟩,
   { userId := userId, name := sanitizedName,
     message := "Welcome " ++ sanitizedName ++ "! I\x27m Remiro AI, your career counsellor. I\x27m here to help you discover your ideal career path through a comprehensive 12-dimensional assessment. Let\x27s begin this journey together." })

/-- The directory-resolution step shared by every lookup:
`userDirs.find(dir => dir.includes(userId))` — the first directory whose
name contains `userId` as a substring. -/
def findUserDir (st : Store) (userId : String) : Option UserDir :=
  st.usersDir.find? (fun d => strIncludes d.dirName userId)

/-- `UserManager.getUserContext(userId)`: resolve the directory and read
`profile.json`; the inner `throw new Error('User not found')` is caught
and rewrapped, so the observable failure is a generic `Error`. -/
def getUserContext (st : Store) (userId : String) : Except JsError UserData :=
  match findUserDir st userId with
  | none => .error ⟨"Error", "Failed to get user context: User not found"⟩
  | some d => .ok d.profileJson

/-- Rewrite the first directory matching `userId` with `f`, leaving the
rest unchanged: the state change performed by a write that resolved its
directory via `find`. -/
def updateFirstMatch (dirs : List UserDir) (userId : String)
    (f : UserDir → UserDir) : List UserDir :=
  match dirs with
  | [] => []
  | d :: rest =>
    if strIncludes d.dirName userId then f d :: rest
    else d :: updateFirstMatch rest userId f

/-- `UserManager.updateUserProfile(userId, dimension, data)`: resolve the
directory, assign `profile.profile[dimension] = data` (no validation of
`dimension` against the 12 fixed keys), refresh `updatedAt`, write the
record back and return it. -/
def updateUserProfile (st : Store) (userId dimension : String) (data : JsVal)
    (now : String) : Except JsError (Store × UserData) :=
  match findUserDir st userId with
  | none => .error ⟨"Error", "Failed to update user profile: User not found"⟩
  | some d =>
    let profile' : UserData :=
      { d.profileJson with
        profile := objSet d.profileJson.profile dimension data,
        updatedAt := some now }
    .ok (⟨updateFirstMatch st.usersDir userId
            (fun dd => { dd with profileJson := profile' })⟩,
         profile')

/-- `UserManager.saveConversation(userId, sessionId, conversation)`:
resolve the directory, read the session file `${sessionId || 'default'}.json`
(or start from `[]` if absent), push the turn, write the file back and
return the new contents. -/
def saveConversation (st : Store) (userId : String) (sessionId : Option String)
    (conversation : Turn) : Except JsError (Store × List Turn) :=
  match findUserDir st userId with
  | none => .error ⟨"Error", "Failed to save conversation: User not found"⟩
  | some d =>
    let fileName := (sessionId.getD "default") ++ ".json"
    let oldData := ((d.sessions.lookup fileName).getD [])
    let newData := oldData ++ [conversation]
    .ok (⟨updateFirstMatch st.usersDir userId
            (fun dd => { dd with sessions := objSet dd.sessions fileName newData })⟩,
         newData)

/-- JS `s.replace(pat, repl)` with a string pattern: replace the FIRST
occurrence only (unlike Lean's `String.replace`, which replaces all). -/
def replaceFirstAux (repl : List Char) : List Char → List Char → List Char
  | _, [] => []
  | pat, c :: cs =>
    if pat.isPrefixOf (c :: cs) then repl ++ (c :: cs).drop pat.length
    else c :: replaceFirstAux repl pat cs

/-- JS `s.replace(pat, repl)` lifted to `String` (first occurrence only;
the pattern is assumed non-empty, as at its one call site `".json"`). -/
def replaceFirst (s pat repl : String) : String :=
  String.mk (replaceFirstAux repl.toList pat.toList s.toList)

/-- One element of the `sessions` array returned by `getUserData`:
`{ sessionId: file.replace('.json', ''), data }`. -/
structure SessionOut where
  sessionId : String
  data : List Turn
deriving DecidableEq, Repr

/-- What `getUserData` returns: the profile record, the session logs, and
the directory path (kept as the directory name here). -/
structure UserDataResult where
  profile : UserData
  sessions : List SessionOut
  folderPath : String
deriving DecidableEq, Repr

/-- `UserManager.getUserData(userId)`: resolve the directory, read
`profile.json`, and read every session file (empty list when the
`sessions/` directory is absent). -/
def getUserData (st : Store) (userId : String) : Except JsError UserDataResult :=
  match findUserDir st userId with
  | none => .error ⟨"Error", "Failed to get user data: User not found"⟩
  | some d =>
    .ok { profile := d.profileJson,
          sessions := d.sessions.map
            (fun f => { sessionId := replaceFirst f.1 ".json" "", data := f.2 }),
          folderPath := d.dirName }

/-- `Math.round(a / b)` for non-negative `a / b`: round half away from
zero, i.e. `⌊a/b + 1/2⌋ = (2a + b) / (2b)` in exact arithmetic.  (The JS
code computes `(a / b) * 100` in floating point; for the profile sizes at
issue — denominator 12 — the quotient is never a half-integer and the
double rounding agrees with the exact one.) -/
def mathRoundDiv (a b : Nat) : Nat :=
  (2 * a + b) / (2 * b)

/-- The number of non-null dimension slots of a profile map. -/
def completedCount (profile : List (String × JsVal)) : Nat :=
  (profile.filter (fun p => p.2 ≠ JsVal.null)).length

/-- `UserManager.calculateProfileCompleteness(profile)`:
`Math.round((completedDimensions / totalDimensions) * 100)` where
`totalDimensions = Object.keys(profile).length` and `completedDimensions`
counts non-null values. -/
def calculateProfileCompleteness (profile : List (String × JsVal)) : Nat :=
  mathRoundDiv (completedCount profile * 100) profile.length

/-- `UserManager.getAssessedDimensions(profile)`: the keys whose value is
non-null, in object order. -/
def getAssessedDimensions (profile : List (String × JsVal)) : List String :=
  (profile.filter (fun p => p.2 ≠ JsVal.null)).map Prod.fst

/-- The `conversationSummary` part of a user summary; `lastActivity` is
JS `null` (`none`) when there are no sessions. -/
structure ConvSummary where
  totalMessages : Nat
  lastActivity : Option String
deriving DecidableEq, Repr

/-- `UserManager.generateConversationSummary(sessions)`.  When the last
session's data array is empty, `lastSession.data[lastSession.data.length - 1]`
is `undefined` and reading `.timestamp` from it throws a `TypeError`;
that crash is the `.error` branch. -/
def generateConversationSummary (sessions : List SessionOut) :
    Except JsError ConvSummary :=
  let totalMessages := (sessions.map (fun s => s.data.length)).sum
  match sessions.getLast? with
  | none => .ok { totalMessages := totalMessages, lastActivity := none }
  | some lastSession =>
    match lastSession.data[lastSession.data.length - 1]? with
    | none =>
      .error ⟨"TypeError",
        "Cannot read properties of undefined (reading \x27timestamp\x27)"⟩
    | some t =>
      .ok { totalMessages := totalMessages, lastActivity := some t.timestamp }

/-- `UserManager.generateRecommendations(profile)`: one reminder per
null dimension, or the completion message when none are null. -/
def generateRecommendations (profile : List (String × JsVal)) : List String :=
  let recommendations :=
    (profile.filter (fun p => p.2 = JsVal.null)).map
      (fun p => "Complete " ++ p.1 ++ " assessment for better career guidance")
  if recommendations.isEmpty then
    ["Profile complete! Ready for comprehensive career recommendations"]
  else recommendations

/-- What `getUserSummary` returns. -/
structure UserSummary where
  userName : String
  userCreatedAt : String
  totalSessions : Nat
  profileCompleteness : Nat
  dimensionsAssessed : List String
  conversationSummary : ConvSummary
  recommendations : List String
deriving DecidableEq, Repr

/-- `UserManager.getUserSummary(userId)`: assembles the summary from
`getUserData`; any inner failure (including the `TypeError` from
`generateConversationSummary`) is caught and rewrapped as a generic
`Error`. -/
def getUserSummary (st : Store) (userId : String) : Except JsError UserSummary :=
  match getUserData st userId with
  | .error e => .error ⟨"Error", "Failed to generate user summary: " ++ e.message⟩
  | .ok userData =>
    match generateConversationSummary userData.sessions with
    | .error e => .error ⟨"Error", "Failed to generate user summary: " ++ e.message⟩
    | .ok conv =>
      .ok { userName := userData.profile.name,
            userCreatedAt := userData.profile.createdAt,
            totalSessions := userData.sessions.length,
            profileCompleteness := calculateProfileCompleteness userData.profile.profile,
            dimensionsAssessed := getAssessedDimensions userData.profile.profile,
            conversationSummary := conv,
            recommendations := generateRecommendations userData.profile.profile }

/-- An HTTP handler outcome: a JSON payload with status 200, or an error
body with the given status code. -/
inductive ApiResult (α : Type) where
  | ok (value : α)
  | err (status : Nat) (error : String)
deriving DecidableEq, Repr

/-- `POST /api/register-user` (`server.js`): reject an absent or empty
(JS-falsy) `name` with 400, otherwise call `createUser`.  The handler
never reaches its 500 branch in this embedding because `createUser`
cannot fail. -/
def registerUserHandler (st : Store) (name : Option String) (userId now : String) :
    Store × ApiResult CreateResult :=
  match name with
  | none => (st, .err 400 "Name is required")
  | some n =>
    if n = "" then (st, .err 400 "Name is required")
    else
      let r := createUser st n userId now
      (r.1, .ok r.2)

/-- `GET /api/user/:userId` (`server.js`): any error from `getUserData`
is reported as status 500 with body `'User not found'`. -/
def getUserHandler (st : Store) (userId : String) : ApiResult UserDataResult :=
  match getUserData st userId with
  | .error _ => .err 500 "User not found"
  | .ok userData => .ok userData

/-! ### The assessment router (`get_next_options`)

`AGENT_LOGICAL_FLOW_DETAILED.md` documents the master agent's routing as
Python over a profile whose `assessments[dim]['completed']` flags mark
finished dimensions.  We embed the flags as an association list from
dimension name to Bool (`assessments.get(dim, {}).get('completed', False)`
reads a missing entry as `False`). -/

/-- `all_dimensions` of `get_assessment_progress`, in source order. -/
def allDimensionsPy : List String :=
  ["personality", "interests", "aspirations", "skills", "motivations_values",
   "cognitive_abilities", "learning_preferences", "physical_context",
   "strengths_weaknesses", "emotional_intelligence", "track_record",
   "constraints"]

/-- `get_assessment_progress` output.  `progressPercentageTenths` holds
`round((len(completed)/12)*100, 1)` in tenths of a percent; for these
inputs the exact quotient is never a half-tenth, so Python's
round-half-to-even agrees with round-half-up. -/
structure PyProgress where
  completed : List String
  remaining : List String
  progressPercentageTenths : Nat
deriving DecidableEq, Repr

/-- `MasterAgent.get_assessment_progress(user_profile)`. -/
def getAssessmentProgress (assessments : List (String × Bool)) : PyProgress :=
  let completed := allDimensionsPy.filter
    (fun dim => (assessments.lookup dim).getD false)
  let remaining := allDimensionsPy.filter (fun dim => ¬ dim ∈ completed)
  { completed := completed, remaining := remaining,
    progressPercentageTenths :=
      mathRoundDiv (completed.length * 1000) allDimensionsPy.length }

/-- Python `str.title()` over one character: uppercase the first letter
of each alphabetic run, lowercase the rest. -/
def pyTitleAux : Bool → List Char → List Char
  | _, [] => []
  | prevAlpha, c :: cs =>
    (if c.isAlpha then (if prevAlpha then c.toLower else c.toUpper) else c)
      :: pyTitleAux c.isAlpha cs

/-- `dimension.replace('_', ' ').title()`. -/
def pyDisplayName (dim : String) : String :=
  String.mk (pyTitleAux false
    (dim.toList.map (fun c => if c = '_' then ' ' else c)))

/-- One option offered to the user: `{"agent": ..., "title": ...}`. -/
structure PyOption where
  agent : String
  title : String
deriving DecidableEq, Repr

/-- `MasterAgent.get_next_options(user_profile)`: with ≥ 8 completed
dimensions it RETURNS EARLY with the single action-plan option; otherwise
it lists the remaining dimension assessments and appends the insights
option when ≥ 3 are completed. -/
def getNextOptions (assessments : List (String × Bool)) : List PyOption :=
  let progress := getAssessmentProgress assessments
  if 8 ≤ progress.completed.length then
    [{ agent := "action_plan", title := "🎯 Generate Career Action Plan" }]
  else
    let options := progress.remaining.map
      (fun dim => { agent := dim,
                    title := "📋 " ++ pyDisplayName dim ++ " Assessment" })
    if 3 ≤ progress.completed.length then
      options ++ [{ agent := "insights", title := "💡 Get Career Insights" }]
    else options

/-! ### Reachable store states

The states produced by the `UserManager` mutators alone, starting from an
empty `data/users` directory. -/

/-- Store states reachable through `createUser`, `updateUserProfile` and
`saveConversation` from the empty store. -/
inductive Reachable : Store → Prop
  | init : Reachable ⟨[]⟩
  | createStep {st : Store} (name userId now : String) :
      Reachable st → Reachable (createUser st name userId now).1
  | updateStep {st st' : Store} {p : UserData}
      (userId dimension : String) (data : JsVal) (now : String) :
      Reachable st → updateUserProfile st userId dimension data now = .ok (st', p) →
      Reachable st'
  | saveStep {st st' : Store} {sd : List Turn}
      (userId : String) (sessionId : Option String) (conversation : Turn) :
      Reachable st → saveConversation st userId sessionId conversation = .ok (st', sd) →
      Reachable st'

/-- Every stored session file holds at least one turn. -/
def SessionsNonempty (st : Store) : Prop :=
  ∀ d ∈ st.usersDir, ∀ e ∈ d.sessions, e.2 ≠ []

/-! ### Concrete fixtures used by witnesses and counterexamples -/

/-- The store after registering the single user `"Afrin"` (id `"u1"`). -/
def afrinStore : Store := (createUser ⟨[]⟩ "Afrin" "u1" "t0").1

/-- `"Afrin"`'s freshly created profile record. -/
def afrinProfile : UserData :=
  { id := "u1", name := "Afrin", createdAt := "t0",
    profile := initialProfile, updatedAt := none }

/-- The store holding `"Afrin"` (id `"u1"`) and `"Banu"` (id `"u2"`). -/
def twoUserStore : Store := (createUser afrinStore "Banu" "u2" "t4").1

/-- `initialProfile` with `personality`, `interests` and `skills` set. -/
def threeSetProfile : List (String × JsVal) :=
  objSet (objSet (objSet initialProfile
    "personality" (JsVal.obj "p")) "interests" (JsVal.obj "i")) "skills" (JsVal.obj "s")

/-- `"Afrin"`'s user directory as `createUser` lays it out. -/
def afrinDir : UserDir :=
  ⟨sanitize "Afrin" ++ "_" ++ "u1", afrinProfile, []⟩

/-- Conversation turn fixtures. -/
def turnA : Turn := ⟨"t1", "hello", "hi"⟩

def turnB : Turn := ⟨"t2", "tell me more", "sure"⟩

def turnC : Turn := ⟨"t3", "thanks", "welcome"⟩

/-- The store after `"Afrin"`'s `personality` slot has been set to `r1`
(fixture; the fallback branch is never taken). -/
def afrinStore1 : Store :=
  ((updateUserProfile afrinStore "u1" "personality" (JsVal.obj "r1") "t1").toOption.getD
    (⟨[]⟩, afrinProfile)).1

/-- The store after one turn has been saved to `"Afrin"`'s default
session (fixture; the fallback branch is never taken). -/
def afrinStoreS : Store :=
  ((saveConversation afrinStore "u1" none turnA).toOption.getD (⟨[]⟩, [])).1

/-- Router input with every dimension flagged completed. -/
def allCompletedAssessments : List (String × Bool) :=
  allDimensionsPy.map (fun d => (d, true))

/-- Router input with exactly three dimensions flagged completed. -/
def threeCompletedAssessments : List (String × Bool) :=
  [("personality", true), ("interests", true), ("skills", true)]

/-! ### Helper lemmas -/

theorem strIncludes_append_right (s uid : String) :
    strIncludes (s ++ uid) uid = true := by
  have htl : (s ++ uid).toList = s.toList ++ uid.toList := by
    simp [String.toList]
  simp only [strIncludes, htl, decide_eq_true_eq]
  exact (List.suffix_append s.toList uid.toList).isInfix

theorem lookup_map_overwrite {β : Type} (k : String) (v : β) :
    ∀ (o : List (String × β)), o.any (fun p => p.1 == k) = true →
      (o.map (fun p => if p.1 == k then (k, v) else p)).lookup k = some v := by
  intro o
  induction o with
  | nil => intro h; simp at h
  | cons p ps ih =>
    rcases p with ⟨a, b⟩
    intro h
    by_cases hpk : ((a, b).1 == k) = true
    · rw [List.map_cons, if_pos hpk]
      exact List.lookup_cons_self
    · have hany : ps.any (fun p => p.1 == k) = true := by
        simp only [List.any_cons, Bool.or_eq_true] at h
        exact h.resolve_left hpk
      have hne : (k == a) = false := by
        rw [beq_eq_false_iff_ne]
        intro hk
        exact hpk (by simp [hk])
      rw [List.map_cons, if_neg hpk]
      simp only [List.lookup_cons, hne]
      exact ih hany

theorem lookup_append_new {β : Type} (k : String) (v : β)
    (o : List (String × β)) (h : o.any (fun p => p.1 == k) = false) :
    (o ++ [(k, v)]).lookup k = some v := by
  have h' : ∀ p ∈ o, ¬ (p.1 == k) = true := List.any_eq_false.mp h
  have hnone : o.lookup k = none := by
    rw [List.lookup_eq_none_iff]
    intro p hp
    simp only [bne_iff_ne, ne_eq]
    intro hk
    exact h' p hp (by simp [hk])
  rw [List.lookup_append, hnone]
  simp

/-- After `o[k] = v`, reading key `k` yields `v`. -/
theorem objSet_lookup_self {β : Type} (o : List (String × β)) (k : String) (v : β) :
    (objSet o k v).lookup k = some v := by
  unfold objSet
  by_cases h : o.any (fun p => p.1 == k)
  · rw [if_pos h]; exact lookup_map_overwrite k v o h
  · rw [if_neg h]
    exact lookup_append_new k v o (Bool.eq_false_iff.mpr h)

/-- Assigning a key that is absent appends it to the key list. -/
theorem objSet_keys_of_not_mem {β : Type} (o : List (String × β)) (k : String)
    (v : β) (h : ¬ k ∈ o.map Prod.fst) :
    (objSet o k v).map Prod.fst = o.map Prod.fst ++ [k] := by
  have hany : ¬ o.any (fun p => p.1 == k) = true := by
    intro hc
    rcases List.any_eq_true.mp hc with ⟨p, hp, hpk⟩
    exact h (List.mem_map.mpr ⟨p, hp, eq_of_beq hpk⟩)
  unfold objSet
  rw [if_neg hany, List.map_append]
  rfl

/-- Every entry of `objSet o k v` is the new binding or an old entry. -/
theorem mem_objSet {β : Type} {o : List (String × β)} {k : String} {v : β}
    {e : String × β} (h : e ∈ objSet o k v) : e = (k, v) ∨ e ∈ o := by
  unfold objSet at h
  by_cases hany : o.any (fun p => p.1 == k)
  · rw [if_pos hany, List.mem_map] at h
    rcases h with ⟨p, hp, hpe⟩
    by_cases hpk : p.1 == k
    · rw [if_pos hpk] at hpe; exact .inl hpe.symm
    · rw [if_neg hpk] at hpe; exact .inr (hpe ▸ hp)
  · rw [if_neg hany, List.mem_append] at h
    rcases h with h | h
    · exact .inr h
    · exact .inl (by simpa using h)

/-- A successful `lookup` exhibits a stored entry. -/
theorem lookup_mem {β : Type} :
    ∀ {o : List (String × β)} {k : String} {v : β},
      o.lookup k = some v → (k, v) ∈ o := by
  intro o
  induction o with
  | nil => intro k v h; simp at h
  | cons p ps ih =>
    rcases p with ⟨a, b⟩
    intro k v h
    by_cases hk : (k == a) = true
    · simp only [List.lookup_cons, hk, Option.some.injEq] at h
      exact List.mem_cons.mpr (.inl (by rw [eq_of_beq hk, h]))
    · simp only [List.lookup_cons, Bool.eq_false_iff.mpr hk] at h
      exact List.mem_cons_of_mem _ (ih h)

/-- Rewriting the first matching directory commutes with `find?` when the
rewrite preserves the directory name. -/
theorem find?_updateFirstMatch (uid : String) (f : UserDir → UserDir)
    (hname : ∀ d, (f d).dirName = d.dirName) :
    ∀ (dirs : List UserDir),
      (updateFirstMatch dirs uid f).find? (fun d => strIncludes d.dirName uid) =
        (dirs.find? (fun d => strIncludes d.dirName uid)).map f := by
  intro dirs
  induction dirs with
  | nil => rfl
  | cons d rest ih =>
    by_cases h : strIncludes d.dirName uid
    · simp only [updateFirstMatch, if_pos h]
      simp only [List.find?, hname d, h, Option.map_some']
    · simp only [updateFirstMatch, if_neg h]
      simp only [List.find?, hname d, Bool.eq_false_iff.mpr h]
      exact ih

/-- Every directory of the rewritten list is an old directory or the
rewrite of one. -/
theorem mem_updateFirstMatch {uid : String} {f : UserDir → UserDir} :
    ∀ {dirs : List UserDir} {d' : UserDir}, d' ∈ updateFirstMatch dirs uid f →
      d' ∈ dirs ∨ ∃ d0 ∈ dirs, d' = f d0 := by
  intro dirs
  induction dirs with
  | nil => intro d' h; simp [updateFirstMatch] at h
  | cons d rest ih =>
    intro d' h
    by_cases hd : strIncludes d.dirName uid
    · simp only [updateFirstMatch, if_pos hd, List.mem_cons] at h
      rcases h with h | h
      · exact .inr ⟨d, List.mem_cons_self d rest, h⟩
      · exact .inl (List.mem_cons_of_mem d h)
    · simp only [updateFirstMatch, if_neg hd, List.mem_cons] at h
      rcases h with h | h
      · exact .inl (h ▸ List.mem_cons_self d rest)
      · rcases ih h with h' | ⟨d0, hd0, he⟩
        · exact .inl (List.mem_cons_of_mem d h')
        · exact .inr ⟨d0, List.mem_cons_of_mem d hd0, he⟩

/-- Inversion of a successful `updateUserProfile` call. -/
theorem updateUserProfile_ok_inv {st st' : Store} {uid dim : String}
    {data : JsVal} {now : String} {p : UserData}
    (h : updateUserProfile st uid dim data now = .ok (st', p)) :
    ∃ d, findUserDir st uid = some d ∧
      p = { d.profileJson with
            profile := objSet d.profileJson.profile dim data,
            updatedAt := some now } ∧
      st' = ⟨updateFirstMatch st.usersDir uid
              (fun dd => { dd with profileJson := p })⟩ := by
  unfold updateUserProfile at h
  cases hfind : findUserDir st uid with
  | none => rw [hfind] at h; exact absurd h (by simp)
  | some d =>
    rw [hfind] at h
    simp only [Except.ok.injEq, Prod.mk.injEq] at h
    refine ⟨d, rfl, h.2.symm, ?_⟩
    rw [← h.1, ← h.2]

/-- Inversion of a successful `saveConversation` call. -/
theorem saveConversation_ok_inv {st st' : Store} {uid : String}
    {sid : Option String} {t : Turn} {sd : List Turn}
    (h : saveConversation st uid sid t = .ok (st', sd)) :
    ∃ d, findUserDir st uid = some d ∧
      sd = ((d.sessions.lookup ((sid.getD "default") ++ ".json")).getD []) ++ [t] ∧
      st' = ⟨updateFirstMatch st.usersDir uid
              (fun dd => { dd with sessions := objSet dd.sessions ((sid.getD "default") ++ ".json") sd })⟩ := by
  unfold saveConversation at h
  cases hfind : findUserDir st uid with
  | none => rw [hfind] at h; exact absurd h (by simp)
  | some d =>
    rw [hfind] at h
    simp only [Except.ok.injEq, Prod.mk.injEq] at h
    refine ⟨d, rfl, h.2.symm, ?_⟩
    rw [← h.1, ← h.2]

/-- The `UserManager` mutators never store an empty session log:
`saveConversation` always pushes a turn before writing a file. -/
theorem reachable_sessionsNonempty :
    ∀ {st : Store}, Reachable st → SessionsNonempty st := by
  intro st h
  induction h with
  | init => intro d hd; simp at hd
  | createStep name userId now _ ih =>
    intro d hd e he
    simp only [createUser, List.mem_append] at hd
    rcases hd with hd | hd
    · exact ih d hd e he
    · simp only [List.mem_singleton] at hd
      rw [hd] at he
      simp at he
  | updateStep userId dimension data now _ heq ih =>
    rcases updateUserProfile_ok_inv heq with ⟨d0, _, _, hst⟩
    rw [hst]
    intro d hd e he
    rcases mem_updateFirstMatch hd with hd' | ⟨dd, hdd, hde⟩
    · exact ih d hd' e he
    · rw [hde] at he
      exact ih dd hdd e he
  | saveStep userId sessionId conversation _ heq ih =>
    rcases saveConversation_ok_inv heq with ⟨d0, _, hsd, hst⟩
    rw [hst]
    intro d hd e he
    rcases mem_updateFirstMatch hd with hd' | ⟨dd, hdd, hde⟩
    · exact ih d hd' e he
    · rw [hde] at he
      rcases mem_objSet he with he' | he'
      · rw [he', hsd]
        simp
      · exact ih dd hdd e he'

/-- `generateConversationSummary` succeeds whenever every session log is
non-empty: the last-turn access is then in bounds. -/
theorem generateConversationSummary_ok_of_nonempty
    (sessions : List SessionOut) (h : ∀ s ∈ sessions, s.data ≠ []) :
    ∃ c, generateConversationSummary sessions = .ok c := by
  unfold generateConversationSummary
  cases hl : sessions.getLast? with
  | none => exact ⟨_, rfl⟩
  | some lastSession =>
    have hne := h lastSession (List.mem_of_getLast?_eq_some hl)
    have hidx : lastSession.data.length - 1 < lastSession.data.length := by
      have := List.length_pos.mpr hne
      omega
    simp only [List.getElem?_eq_getElem hidx]
    exact ⟨_, rfl⟩

/-- A fresh user id resolves to the newly created directory: no earlier
directory name contains it (`hfresh` embeds uuid freshness). -/
theorem findUserDir_createUser (st : Store) (name userId now : String)
    (hfresh : ∀ d ∈ st.usersDir, strIncludes d.dirName userId = false) :
    findUserDir (createUser st name userId now).1 userId =
      some ⟨sanitize name ++ "_" ++ userId,
            { id := userId, name := sanitize name, createdAt := now,
              profile := initialProfile, updatedAt := none }, []⟩ := by
  unfold findUserDir createUser
  simp only [List.find?_append]
  rw [List.find?_eq_none.mpr (fun d hd => by rw [hfresh d hd]; exact Bool.false_ne_true)]
  simp only [Option.none_or, List.find?]
  rw [strIncludes_append_right (sanitize name ++ "_") userId]

/-! ### Claim theorems -/

/-- Claim C1: for every valid (non-empty after sanitization) name,
`createProfile(name)` returns a profile record whose dimensions mapping
has exactly the 12 fixed keys all bound to `null`, and a subsequent
`getProfile` called with the returned id resolves to that stored record
rather than failing.  (`hfresh` embeds the freshness of the generated
uuid: it occurs in no pre-existing directory name.) -/
theorem createUser_initializes_and_resolves (st : Store)
    (name userId now : String) (_hname : sanitize name ≠ "")
    (hfresh : ∀ d ∈ st.usersDir, strIncludes d.dirName userId = false) :
    (createUser st name userId now).2.userId = userId ∧
    getUserContext (createUser st name userId now).1 userId =
      .ok { id := userId, name := sanitize name, createdAt := now,
            profile := dimensionKeys.map (fun k => (k, JsVal.null)),
            updatedAt := none } ∧
    (dimensionKeys.map (fun k => (k, JsVal.null))).map Prod.fst = dimensionKeys ∧
    dimensionKeys.length = 12 ∧
    ∀ k ∈ dimensionKeys,
      (dimensionKeys.map (fun k => (k, JsVal.null))).lookup k = some JsVal.null := by
  refine ⟨rfl, ?_, by decide, by decide, by decide⟩
  unfold getUserContext
  rw [findUserDir_createUser st name userId now hfresh]
  rfl

/-- Concrete instance of `createUser_initializes_and_resolves`: the
profile created for the name `"Afrin"` in the empty store. -/
theorem createUser_initializes_and_resolves_witness :
    (createUser ⟨[]⟩ "Afrin" "u1" "t0").2.userId = "u1" ∧
    getUserContext (createUser ⟨[]⟩ "Afrin" "u1" "t0").1 "u1" =
      .ok { id := "u1", name := sanitize "Afrin", createdAt := "t0",
            profile := dimensionKeys.map (fun k => (k, JsVal.null)),
            updatedAt := none } ∧
    (dimensionKeys.map (fun k => (k, JsVal.null))).map Prod.fst = dimensionKeys ∧
    dimensionKeys.length = 12 ∧
    ∀ k ∈ dimensionKeys,
      (dimensionKeys.map (fun k => (k, JsVal.null))).lookup k = some JsVal.null :=
  createUser_initializes_and_resolves ⟨[]⟩ "Afrin" "u1" "t0"
    (by decide) (fun d hd => by simp at hd)

/-- Claim C2 counterexample: `setDimension` is NOT write-once.  Setting
`personality` to `r1` and then to `r2` leaves `r2` stored: the second
call is not a no-op and the first result does not survive. -/
theorem setDimension_not_write_once :
    ∃ st1 p1 st2 p2,
      updateUserProfile afrinStore "u1" "personality" (JsVal.obj "r1") "t1" =
        .ok (st1, p1) ∧
      p1.profile.lookup "personality" = some (JsVal.obj "r1") ∧
      updateUserProfile st1 "u1" "personality" (JsVal.obj "r2") "t2" =
        .ok (st2, p2) ∧
      p2.profile.lookup "personality" = some (JsVal.obj "r2") ∧
      JsVal.obj "r2" ≠ JsVal.obj "r1" ∧
      st2 ≠ st1 := by
  refine ⟨_, _, _, _, rfl, by decide, rfl, by decide, by decide, by decide⟩

/-- Claim C2 (amended): `setDimension` overwrites — last writer wins.
After any successful call the slot holds exactly the data just written
(whatever was stored before, including a previous `DimensionResult`),
the record's `updatedAt` is refreshed, and the overwritten record is what
a subsequent `getProfile` returns. -/
theorem setDimension_overwrites (st st' : Store) (uid dim : String)
    (data : JsVal) (now : String) (p' : UserData)
    (h : updateUserProfile st uid dim data now = .ok (st', p')) :
    p'.profile.lookup dim = some data ∧
    p'.updatedAt = some now ∧
    getUserContext st' uid = .ok p' := by
  rcases updateUserProfile_ok_inv h with ⟨d, hfind, hp, hst⟩
  refine ⟨?_, ?_, ?_⟩
  · rw [hp]
    exact objSet_lookup_self _ _ _
  · rw [hp]
  · rw [hst]
    unfold getUserContext findUserDir
    rw [find?_updateFirstMatch uid (fun dd => { dd with profileJson := p' })
          (fun dd => rfl) st.usersDir]
    unfold findUserDir at hfind
    rw [hfind]
    rfl

/-- Concrete instance of `setDimension_overwrites`: overwriting
`personality` (already set to `r1` in `afrinStore1`) with `r2` stores
`r2`. -/
theorem setDimension_overwrites_witness :
    ∃ st2 p2,
      updateUserProfile afrinStore1 "u1" "personality" (JsVal.obj "r2") "t2" =
        .ok (st2, p2) ∧
      p2.profile.lookup "personality" = some (JsVal.obj "r2") ∧
      p2.updatedAt = some "t2" := by
  refine ⟨_, _, rfl, ?_, ?_⟩
  · exact (setDimension_overwrites afrinStore1 _ "u1" "personality"
      (JsVal.obj "r2") "t2" _ rfl).1
  · exact (setDimension_overwrites afrinStore1 _ "u1" "personality"
      (JsVal.obj "r2") "t2" _ rfl).2.1

/-- Claim C3 counterexample: `setDimension` with the key `"bogus"` (not
one of the 12 fixed keys) succeeds instead of failing, and the stored
key set grows to 13 keys. -/
theorem setDimension_unknown_key_accepted :
    ∃ st' p',
      updateUserProfile afrinStore "u1" "bogus" (JsVal.obj "x") "t1" =
        .ok (st', p') ∧
      p'.profile.map Prod.fst = dimensionKeys ++ ["bogus"] ∧
      dimensionKeys ++ ["bogus"] ≠ dimensionKeys := by
  refine ⟨_, _, rfl, by decide, by decide⟩

/-- Claim C3 (amended): `setDimension` performs no validation of the
dimension key.  A call with a key absent from the stored profile's key
set succeeds and appends that key, so the key set of `dimensions` can
grow beyond the 12 fixed keys. -/
theorem setDimension_no_key_validation (st : Store) (uid dim : String)
    (data : JsVal) (now : String) (p0 : UserData)
    (h0 : getUserContext st uid = .ok p0)
    (hdim : ¬ dim ∈ p0.profile.map Prod.fst) :
    ∃ st' p', updateUserProfile st uid dim data now = .ok (st', p') ∧
      p'.profile.map Prod.fst = p0.profile.map Prod.fst ++ [dim] ∧
      p'.profile.lookup dim = some data := by
  unfold getUserContext at h0
  cases hfind : findUserDir st uid with
  | none => rw [hfind] at h0; exact absurd h0 (by simp)
  | some d =>
    rw [hfind] at h0
    simp only [Except.ok.injEq] at h0
    refine ⟨⟨updateFirstMatch st.usersDir uid
              (fun dd => { dd with profileJson :=
                { d.profileJson with
                  profile := objSet d.profileJson.profile dim data,
                  updatedAt := some now } })⟩,
            { d.profileJson with
              profile := objSet d.profileJson.profile dim data,
              updatedAt := some now }, ?_, ?_, ?_⟩
    · unfold updateUserProfile
      rw [hfind]
    · show (objSet d.profileJson.profile dim data).map Prod.fst = _
      rw [h0]
      exact objSet_keys_of_not_mem _ _ _ hdim
    · exact objSet_lookup_self _ _ _

/-- Concrete instance of `setDimension_no_key_validation` at the key
`"bogus"` on `"Afrin"`'s fresh profile. -/
theorem setDimension_no_key_validation_witness :
    ∃ st' p',
      updateUserProfile afrinStore "u1" "bogus2" (JsVal.obj "y") "t1" =
        .ok (st', p') ∧
      p'.profile.map Prod.fst = afrinProfile.profile.map Prod.fst ++ ["bogus2"] ∧
      p'.profile.lookup "bogus2" = some (JsVal.obj "y") :=
  setDimension_no_key_validation afrinStore "u1" "bogus2" (JsVal.obj "y") "t1"
    afrinProfile rfl (by decide)

/-- Claim C4: for a profile with the 12 fixed keys,
`calculateProfileCompleteness` is `round(100 * completed / 12)` with the
claimed boundary values 0, 25 and 100 — no division error at either
boundary (the denominator is the constant key count 12). -/
theorem calculateProfileCompleteness_formula (profile : List (String × JsVal))
    (hkeys : profile.map Prod.fst = dimensionKeys) :
    calculateProfileCompleteness profile =
      mathRoundDiv (100 * completedCount profile) 12 ∧
    (completedCount profile = 0 → calculateProfileCompleteness profile = 0) ∧
    (completedCount profile = 3 → calculateProfileCompleteness profile = 25) ∧
    (completedCount profile = 12 → calculateProfileCompleteness profile = 100) := by
  have hlen : profile.length = 12 := by
    have h := congrArg List.length hkeys
    simpa using h
  have hmain : calculateProfileCompleteness profile =
      mathRoundDiv (100 * completedCount profile) 12 := by
    unfold calculateProfileCompleteness
    rw [hlen, Nat.mul_comm (completedCount profile) 100]
  refine ⟨hmain, ?_, ?_, ?_⟩ <;> intro hc <;> rw [hmain, hc] <;> decide

/-- Concrete instance of `calculateProfileCompleteness_formula`: with
`personality`, `interests`, `skills` completed the percentage is 25. -/
theorem calculateProfileCompleteness_formula_witness :
    completedCount threeSetProfile = 3 ∧
    calculateProfileCompleteness threeSetProfile = 25 :=
  ⟨by decide,
   (calculateProfileCompleteness_formula threeSetProfile (by decide)).2.2.1
     (by decide)⟩

/-- Claim C5 counterexample: the unknown-id failure of `getProfile` is a
generic JS `Error` (class name `"Error"`, wrapped message), not a
distinct `NotFoundError` taxonomy kind, and the HTTP layer reports it as
status 500. -/
theorem getUserContext_generic_error :
    getUserContext ⟨[]⟩ "does-not-exist" =
      .error ⟨"Error", "Failed to get user context: User not found"⟩ ∧
    "Error" ≠ "NotFoundError" ∧
    getUserHandler ⟨[]⟩ "does-not-exist" = .err 500 "User not found" :=
  ⟨rfl, by decide, rfl⟩

/-- Claim C5 (amended): when no directory matches the id, `getProfile`
fails — it never returns a default or empty profile — but the failure is
the generic `Error` with message
`"Failed to get user context: User not found"`, not a classified
taxonomy kind. -/
theorem getUserContext_unknown_id (st : Store) (uid : String)
    (h : findUserDir st uid = none) :
    getUserContext st uid =
      .error ⟨"Error", "Failed to get user context: User not found"⟩ ∧
    ∀ ud, getUserContext st uid ≠ .ok ud := by
  have h1 : getUserContext st uid =
      .error ⟨"Error", "Failed to get user context: User not found"⟩ := by
    unfold getUserContext
    rw [h]
  exact ⟨h1, fun ud hc => by rw [h1] at hc; exact absurd hc (by simp)⟩

/-- Concrete instance of `getUserContext_unknown_id` on the empty store. -/
theorem getUserContext_unknown_id_witness :
    getUserContext ⟨[]⟩ "nobody" =
      .error ⟨"Error", "Failed to get user context: User not found"⟩ ∧
    ∀ ud, getUserContext ⟨[]⟩ "nobody" ≠ .ok ud :=
  getUserContext_unknown_id ⟨[]⟩ "nobody" rfl

/-- Claim C6 counterexample: `createProfile` does NOT fail when the name
is empty after sanitization.  `"!!!"` sanitizes to `""`, yet a durable
record with the empty name is created, and the register handler accepts
the request (its only check is JS falsiness of the raw name). -/
theorem createUser_empty_sanitized_no_failure :
    sanitize "!!!" = "" ∧
    (createUser ⟨[]⟩ "!!!" "u1" "t0").2.name = "" ∧
    (createUser ⟨[]⟩ "!!!" "u1" "t0").1.usersDir.length = 1 ∧
    (registerUserHandler ⟨[]⟩ (some "!!!") "u1" "t0").2 ≠
      .err 400 "Name is required" :=
  ⟨by decide, by decide, by decide, by decide⟩

/-- Claim C6 (amended): `createProfile` sanitizes the name (strip
characters outside letters/digits/whitespace, then trim) but raises no
`ValidationError` when the result is empty: it creates a durable record
whose name is the empty string, and the HTTP handler — which only
rejects a missing or empty raw name — accepts such requests. -/
theorem createUser_creates_despite_empty_name (st : Store)
    (name userId now : String) (hn : name ≠ "") (hs : sanitize name = "") :
    (createUser st name userId now).2.name = "" ∧
    (createUser st name userId now).1.usersDir.length = st.usersDir.length + 1 ∧
    (registerUserHandler st (some name) userId now).2 ≠
      .err 400 "Name is required" := by
  refine ⟨?_, ?_, ?_⟩
  · show sanitize name = ""
    exact hs
  · simp [createUser]
  · unfold registerUserHandler
    dsimp only
    rw [if_neg hn]
    intro hc
    simp at hc

/-- Concrete instance of `createUser_creates_despite_empty_name` at the
name `"!!!"`. -/
theorem createUser_creates_despite_empty_name_witness :
    (createUser ⟨[]⟩ "!!!" "u9" "t9").2.name = "" ∧
    (createUser ⟨[]⟩ "!!!" "u9" "t9").1.usersDir.length =
      (⟨[]⟩ : Store).usersDir.length + 1 ∧
    (registerUserHandler ⟨[]⟩ (some "!!!") "u9" "t9").2 ≠
      .err 400 "Name is required" :=
  createUser_creates_despite_empty_name ⟨[]⟩ "!!!" "u9" "t9"
    (by decide) (by decide)

/-- A resolved `saveConversation` call succeeds and appends the turn to
the (possibly absent) session file. -/
theorem saveConversation_ok_of_found {st : Store} {uid : String} {d : UserDir}
    (hfind : findUserDir st uid = some d) (sid : Option String) (t : Turn)
    (sd : List Turn)
    (hsd : sd = ((d.sessions.lookup ((sid.getD "default") ++ ".json")).getD []) ++ [t]) :
    saveConversation st uid sid t =
      .ok (⟨updateFirstMatch st.usersDir uid (fun dd => { dd with sessions := objSet dd.sessions ((sid.getD "default") ++ ".json") sd })⟩, sd) := by
  subst hsd
  unfold saveConversation
  rw [hfind]

/-- After a successful `saveConversation`, the user's directory resolves
to its rewritten version. -/
theorem findUserDir_after_save {st st' : Store} {uid : String}
    {sid : Option String} {t : Turn} {sd : List Turn} {d : UserDir}
    (hfind : findUserDir st uid = some d)
    (h : saveConversation st uid sid t = .ok (st', sd)) :
    findUserDir st' uid =
      some { d with sessions := objSet d.sessions ((sid.getD "default") ++ ".json") sd } := by
  rcases saveConversation_ok_inv h with ⟨d0, hfind0, _, hst⟩
  rw [hfind0] at hfind
  injection hfind with hd
  subst hd
  rw [hst]
  unfold findUserDir
  rw [find?_updateFirstMatch uid
        (fun dd => { dd with sessions := objSet dd.sessions ((sid.getD "default") ++ ".json") sd })
        (fun dd => rfl) st.usersDir]
  unfold findUserDir at hfind0
  rw [hfind0]
  rfl

/-- Claim C7: appending turns A, B, C for a session (whose log is created
when absent) stores them after the existing turns in exactly that order,
and `getUserData` reads the session back with that exact ordered log:
appends never edit, reorder or delete previously stored turns. -/
theorem saveConversation_append_order (st : Store) (uid : String)
    (sid : Option String) (A B C : Turn) (d : UserDir)
    (hfind : findUserDir st uid = some d) :
    ∃ st1 st2 st3,
      saveConversation st uid sid A =
        .ok (st1,
          ((d.sessions.lookup ((sid.getD "default") ++ ".json")).getD []) ++ [A]) ∧
      saveConversation st1 uid sid B =
        .ok (st2,
          ((d.sessions.lookup ((sid.getD "default") ++ ".json")).getD []) ++ [A, B]) ∧
      saveConversation st2 uid sid C =
        .ok (st3,
          ((d.sessions.lookup ((sid.getD "default") ++ ".json")).getD []) ++ [A, B, C]) ∧
      ∃ ud, getUserData st3 uid = .ok ud ∧
        (⟨replaceFirst ((sid.getD "default") ++ ".json") ".json" "",
          ((d.sessions.lookup ((sid.getD "default") ++ ".json")).getD []) ++
            [A, B, C]⟩ : SessionOut) ∈ ud.sessions := by
  have h1 := saveConversation_ok_of_found hfind sid A _ rfl
  have hf1 := findUserDir_after_save hfind h1
  have h2 := saveConversation_ok_of_found hf1 sid B _ rfl
  have hf2 := findUserDir_after_save hf1 h2
  simp only [objSet_lookup_self, Option.getD_some, List.append_assoc,
    List.cons_append, List.nil_append] at h2 hf2
  have h3 := saveConversation_ok_of_found hf2 sid C _ rfl
  have hf3 := findUserDir_after_save hf2 h3
  simp only [objSet_lookup_self, Option.getD_some, List.append_assoc,
    List.cons_append, List.nil_append] at h3 hf3
  refine ⟨_, _, _, h1, h2, h3, ?_⟩
  unfold getUserData
  rw [hf3]
  refine ⟨_, rfl, ?_⟩
  dsimp only
  exact List.mem_map.mpr
    ⟨((sid.getD "default") ++ ".json",
      ((d.sessions.lookup ((sid.getD "default") ++ ".json")).getD []) ++ [A, B, C]),
     lookup_mem (objSet_lookup_self _ _ _), rfl⟩

/-- Concrete instance of `saveConversation_append_order`: three turns
saved to `"Afrin"`'s default session come back in order. -/
theorem saveConversation_append_order_witness :
    ∃ st1 st2 st3,
      saveConversation afrinStore "u1" none turnA = .ok (st1, [turnA]) ∧
      saveConversation st1 "u1" none turnB = .ok (st2, [turnA, turnB]) ∧
      saveConversation st2 "u1" none turnC = .ok (st3, [turnA, turnB, turnC]) ∧
      ∃ ud, getUserData st3 "u1" = .ok ud ∧
        (⟨"default", [turnA, turnB, turnC]⟩ : SessionOut) ∈ ud.sessions :=
  saveConversation_append_order afrinStore "u1" none turnA turnB turnC
    afrinDir rfl

/-- The `completed` field of `get_assessment_progress`, unfolded. -/
theorem progress_completed_eq (assessments : List (String × Bool)) :
    (getAssessmentProgress assessments).completed =
      allDimensionsPy.filter (fun dim => (assessments.lookup dim).getD false) :=
  rfl

/-- The `remaining` field of `get_assessment_progress`, unfolded. -/
theorem progress_remaining_eq (assessments : List (String × Bool)) :
    (getAssessmentProgress assessments).remaining =
      allDimensionsPy.filter
        (fun dim => ¬ dim ∈ (getAssessmentProgress assessments).completed) :=
  rfl

/-- Agents of the remaining-dimension options all come from the fixed
dimension list. -/
theorem agent_mem_allDimensionsPy {assessments : List (String × Bool)}
    {o : PyOption}
    (ho : o ∈ (getAssessmentProgress assessments).remaining.map
      (fun dim => ({ agent := dim, title := "📋 " ++ pyDisplayName dim ++ " Assessment" } : PyOption))) :
    o.agent ∈ allDimensionsPy := by
  rcases List.mem_map.mp ho with ⟨dim, hdim, hodim⟩
  rw [progress_remaining_eq] at hdim
  have hmem := (List.mem_filter.mp hdim).1
  rw [← hodim]
  exact hmem

/-- Claim C8 (amended): with 0 completed dimensions `get_next_options`
returns exactly the 12 dimension actions and no milestone action; the
insights action appears iff `3 ≤ completed < 8` (NOT iff `completed ≥ 3`:
the `≥ 8` branch returns early); and with `completed ≥ 8` — in particular
with all 12 completed — the output is ONLY the single action-plan option,
with no dimension and no insights actions. -/
theorem getNextOptions_thresholds (assessments : List (String × Bool)) :
    (8 ≤ (getAssessmentProgress assessments).completed.length →
      getNextOptions assessments =
        [{ agent := "action_plan", title := "🎯 Generate Career Action Plan" }]) ∧
    ((getAssessmentProgress assessments).completed.length < 8 →
      (((∃ o ∈ getNextOptions assessments, o.agent = "insights") ↔
          3 ≤ (getAssessmentProgress assessments).completed.length) ∧
        ¬ ∃ o ∈ getNextOptions assessments, o.agent = "action_plan")) ∧
    ((getAssessmentProgress assessments).completed.length = 0 →
      getNextOptions assessments =
        allDimensionsPy.map (fun dim =>
          { agent := dim, title := "📋 " ++ pyDisplayName dim ++ " Assessment" })) := by
  refine ⟨?_, ?_, ?_⟩
  · intro h8
    simp only [getNextOptions]
    rw [if_pos h8]
  · intro h8
    have hnot8 : ¬ 8 ≤ (getAssessmentProgress assessments).completed.length :=
      Nat.not_le.mpr h8
    constructor
    · constructor
      · rintro ⟨o, ho, hoa⟩
        by_contra h3
        simp only [getNextOptions, if_neg hnot8, if_neg h3] at ho
        have hmem := agent_mem_allDimensionsPy ho
        rw [hoa] at hmem
        exact absurd hmem (by decide)
      · intro h3
        refine ⟨⟨"insights", "💡 Get Career Insights"⟩, ?_, rfl⟩
        simp only [getNextOptions, if_neg hnot8, if_pos h3]
        exact List.mem_append_right _ (List.mem_singleton.mpr rfl)
    · rintro ⟨o, ho, hoa⟩
      by_cases h3 : 3 ≤ (getAssessmentProgress assessments).completed.length
      · simp only [getNextOptions, if_neg hnot8, if_pos h3] at ho
        rcases List.mem_append.mp ho with ho | ho
        · have hmem := agent_mem_allDimensionsPy ho
          rw [hoa] at hmem
          exact absurd hmem (by decide)
        · rw [List.mem_singleton.mp ho] at hoa
          exact absurd hoa (by decide)
      · simp only [getNextOptions, if_neg hnot8, if_neg h3] at ho
        have hmem := agent_mem_allDimensionsPy ho
        rw [hoa] at hmem
        exact absurd hmem (by decide)
  · intro h0
    have hc : (getAssessmentProgress assessments).completed = [] :=
      List.length_eq_zero.mp h0
    have hrem : (getAssessmentProgress assessments).remaining = allDimensionsPy := by
      rw [progress_remaining_eq, hc]
      apply List.filter_eq_self.mpr
      intro a _
      simp
    simp only [getNextOptions]
    rw [h0, hrem]
    rw [if_neg (by decide : ¬ (8:Nat) ≤ 0), if_neg (by decide : ¬ (3:Nat) ≤ 0)]

/-- Concrete instance of `getNextOptions_thresholds`: all 12 completed
gives only the action-plan option; three completed includes insights. -/
theorem getNextOptions_thresholds_witness :
    getNextOptions allCompletedAssessments =
      [{ agent := "action_plan", title := "🎯 Generate Career Action Plan" }] ∧
    (∃ o ∈ getNextOptions threeCompletedAssessments, o.agent = "insights") :=
  ⟨(getNextOptions_thresholds allCompletedAssessments).1 (by decide),
   ((getNextOptions_thresholds threeCompletedAssessments).2.1 (by decide)).1.mpr
     (by decide)⟩

/-- Claim C8 counterexample: with all 12 dimensions completed the router
output is ONLY the single action-plan option: the insights action does
not appear although `completed ≥ 3`, `remaining` is empty but the two
milestone actions do NOT both appear. -/
theorem getNextOptions_full_profile_no_insights :
    3 ≤ (getAssessmentProgress allCompletedAssessments).completed.length ∧
    (getAssessmentProgress allCompletedAssessments).remaining = [] ∧
    getNextOptions allCompletedAssessments =
      [{ agent := "action_plan", title := "🎯 Generate Career Action Plan" }] ∧
    ¬ ∃ o ∈ getNextOptions allCompletedAssessments, o.agent = "insights" :=
  ⟨by decide, by decide, by decide, by decide⟩

/-- Claim C9: every lookup resolves the user as the FIRST stored
directory whose name contains the given id as a substring; consequently
an id that belongs to no profile (the empty string, or a fragment of a
stored name such as `"ri"` ⊂ `"Afrin"`) silently yields another user's
record — from every operation — instead of a not-found failure. -/
theorem lookup_by_substring_returns_wrong_user :
    (∀ (st : Store) (uid : String),
      findUserDir st uid = st.usersDir.find? (fun d => strIncludes d.dirName uid)) ∧
    "" ≠ "u1" ∧ "" ≠ "u2" ∧ "ri" ≠ "u1" ∧ "ri" ≠ "u2" ∧
    (∃ ud, getUserContext twoUserStore "" = .ok ud ∧ ud.id = "u1") ∧
    (∃ ud, getUserContext twoUserStore "ri" = .ok ud ∧ ud.id = "u1") ∧
    (∃ r, updateUserProfile twoUserStore "" "personality" (JsVal.obj "x") "t5" =
      .ok r ∧ r.2.id = "u1") ∧
    (∃ r, saveConversation twoUserStore "" none turnA = .ok r) ∧
    (∃ ud, getUserData twoUserStore "" = .ok ud ∧ ud.profile.id = "u1") :=
  ⟨fun st uid => rfl, by decide, by decide, by decide, by decide,
   ⟨_, rfl, by decide⟩, ⟨_, rfl, by decide⟩, ⟨_, rfl, by decide⟩,
   ⟨_, rfl⟩, ⟨_, rfl, by decide⟩⟩

/-- Claim C10: in every store state reachable through the `UserManager`
operations alone, every stored session log is non-empty
(`saveConversation` appends before writing), so the summary's access to
the last turn of the most recent session never dereferences a missing
element: both the conversation summary and the full user summary are
produced without the `TypeError`. -/
theorem reachable_summary_never_crashes (st : Store) (h : Reachable st)
    (uid : String) (ud : UserDataResult)
    (hok : getUserData st uid = .ok ud) :
    (∃ c, generateConversationSummary ud.sessions = .ok c) ∧
    (∃ s, getUserSummary st uid = .ok s) := by
  have hinv := reachable_sessionsNonempty h
  have hGU := hok
  unfold getUserData at hok
  cases hfind : findUserDir st uid with
  | none => rw [hfind] at hok; exact absurd hok (by simp)
  | some d =>
    rw [hfind] at hok
    simp only [Except.ok.injEq] at hok
    have hd : d ∈ st.usersDir := List.mem_of_find?_eq_some hfind
    have hne : ∀ s ∈ ud.sessions, s.data ≠ [] := by
      intro s hs
      rw [← hok] at hs
      dsimp only at hs
      rcases List.mem_map.mp hs with ⟨e, he, hse⟩
      rw [← hse]
      exact hinv d hd e he
    have hconv := generateConversationSummary_ok_of_nonempty ud.sessions hne
    refine ⟨hconv, ?_⟩
    rcases hconv with ⟨c, hc⟩
    unfold getUserSummary
    rw [hGU]
    dsimp only
    rw [hc]
    exact ⟨_, rfl⟩

/-- Concrete instance of `reachable_summary_never_crashes` on the
reachable store with user `"Afrin"` and one saved turn. -/
theorem reachable_summary_never_crashes_witness :
    ∃ ud, getUserData afrinStoreS "u1" = .ok ud ∧
      ((∃ c, generateConversationSummary ud.sessions = .ok c) ∧
        (∃ s, getUserSummary afrinStoreS "u1" = .ok s)) := by
  have h1 : Reachable afrinStore :=
    Reachable.createStep "Afrin" "u1" "t0" Reachable.init
  have hreach : Reachable afrinStoreS :=
    Reachable.saveStep "u1" none turnA h1 rfl
  exact ⟨_, rfl, reachable_summary_never_crashes afrinStoreS hreach "u1" _ rfl⟩
